import Mathlib

/-!
Shallow embedding of `src/sidebar/components/annotation-editor.js`.

The component closes over a single draft value (read from the store at
render time) and a handful of injected services.  Each event handler is
embedded as a pure function of the captured draft and its own inputs,
returning both its boolean result and an explicit record of the side
effects it performs (the new draft value passed to `createDraft`, the
calls made to the tag-suggestion service, the toast-error messages, and
the number of calls to the external save operation).
-/

namespace Client

/-- A tag record `{text: string}` as forwarded to the tag-suggestion
service (`tagsService.store`). -/
structure TagRecord where
  text : String
deriving DecidableEq, Repr

/-- A draft: the unsaved working copy of one annotation.  The source
field `annotation` (the reference to the annotated entity, by identity)
is called `annotId` here. -/
structure Draft where
  annotId : Nat
  text : String
  tags : List String
  isPrivate : Bool
deriving DecidableEq, Repr

/-- JavaScript `String.prototype.trim`: drop leading and trailing
whitespace characters. -/
def jsTrim (s : String) : String :=
  String.mk (((s.data.dropWhile Char.isWhitespace).reverse.dropWhile Char.isWhitespace).reverse)

/-- JavaScript `Array.prototype.indexOf` on a list of strings: the index
of the first element strictly equal to `x`, or `-1` when there is none. -/
def jsIndexOf : List String → String → Int
  | [], _ => -1
  | a :: rest, x =>
    if a = x then 0
    else if jsIndexOf rest x < 0 then -1 else jsIndexOf rest x + 1

/-- JavaScript `l.splice(i, 1)`: remove the single element at index `i`. -/
def spliceRemoveOne (l : List String) (i : Nat) : List String :=
  l.take i ++ l.drop (i + 1)

/-- `onEditTags({tags})`: `createDraft(draft.annotation, {...draft, tags})` —
the draft is replaced wholesale by a copy whose tag list is `tags`. -/
def onEditTags (draft : Draft) (tags : List String) : Draft :=
  { draft with tags := tags }

/-- `onEditText({text})`: `createDraft(draft.annotation, {...draft, text})`. -/
def onEditText (draft : Draft) (text : String) : Draft :=
  { draft with text := text }

/-- Result of `onAddTag`: the boolean return value, the draft value the
store holds afterwards, and the argument lists of the calls made to
`tagsService.store`. -/
structure AddTagResult where
  ret : Bool
  draft : Draft
  tagServiceCalls : List (List TagRecord)
deriving DecidableEq, Repr

/-- `onAddTag(newTag)` from the source: trim; reject empty; reject
duplicates (`tags.indexOf(value) >= 0`); otherwise append, forward the
whole updated list to `tagsService.store`, replace the draft, return
`true`. -/
def onAddTag (draft : Draft) (newTag : String) : AddTagResult :=
  let tags := draft.tags
  let value := jsTrim newTag
  if value.length = 0 then
    -- don't add an empty tag
    ⟨false, draft, []⟩
  else if 0 ≤ jsIndexOf tags value then
    -- don't add duplicate tag
    ⟨false, draft, []⟩
  else
    let tagList := tags ++ [value]
    ⟨true, onEditTags draft tagList, [tagList.map (fun tag => TagRecord.mk tag)]⟩

/-- Result of `onRemoveTag`: the boolean return value and the draft
value the store holds afterwards. -/
structure RemoveTagResult where
  ret : Bool
  draft : Draft
deriving DecidableEq, Repr

/-- `onRemoveTag(tag)` from the source: look up the first exact
occurrence with `indexOf`; if found, `splice` it out, replace the draft,
return `true`; otherwise return `false`. -/
def onRemoveTag (draft : Draft) (tag : String) : RemoveTagResult :=
  let newTagList := draft.tags
  let index := jsIndexOf newTagList tag
  if 0 ≤ index then
    ⟨true, onEditTags draft (spliceRemoveOne newTagList index.toNat)⟩
  else
    ⟨false, draft⟩

/-- `const isEmpty = !text && !tags.length` — a string is falsy exactly
when it is empty. -/
def isEmpty (draft : Draft) : Bool :=
  draft.text == "" && draft.tags.length == 0

/-- Effects of the flush step of `onSave` (lines 114–116): the arguments
of the `onAddTag` calls made, the draft value after the flush, and the
tag-service calls performed by the flush. -/
structure FlushResult where
  addTagCalls : List String
  draft : Draft
  tagServiceCalls : List (List TagRecord)
deriving DecidableEq, Repr

/-- `if (tagInputRef?.current?.value) onAddTag(tagInputRef.current.value)`:
the input ref may be absent (`none`) and its value is truthy exactly when
it is a non-empty string.  The boolean returned by `onAddTag` is
discarded, but its effects stand. -/
def flushTagInput (draft : Draft) (tagInput : Option String) : FlushResult :=
  match tagInput with
  | none => ⟨[], draft, []⟩
  | some v =>
    if v = "" then ⟨[], draft, []⟩
    else ⟨[v], (onAddTag draft v).draft, (onAddTag draft v).tagServiceCalls⟩

/-- Observable outcome of one `onSave` call. -/
structure SaveResult where
  addTagCalls : List String
  draft : Draft
  tagServiceCalls : List (List TagRecord)
  saveCalls : Nat
  toastErrors : List String
deriving DecidableEq, Repr

/-- `onSave` from the source: flush the uncommitted tag input, then
`await annotationsService.save(annotation)` inside `try`; on rejection
(`saveOutcome = .error e`) the `catch` emits the fixed toast message.
The `Except` return type records whether `onSave` itself rethrows: an
`.error` result would model an exception escaping to the caller. -/
def onSave (draft : Draft) (tagInput : Option String)
    (saveOutcome : Except String Unit) : Except String SaveResult :=
  let f := flushTagInput draft tagInput
  match saveOutcome with
  | Except.ok _ =>
    Except.ok ⟨f.addTagCalls, f.draft, f.tagServiceCalls, 1, []⟩
  | Except.error _ =>
    Except.ok ⟨f.addTagCalls, f.draft, f.tagServiceCalls, 1, ["Saving annotation failed"]⟩

/-- A key-press event, with the raw key identifier and the two modifier
flags the handler reads. -/
structure KeyEvent where
  key : String
  metaKey : Bool
  ctrlKey : Bool
deriving DecidableEq, Repr

/-- Observable outcome of one `onKeyDown` call: whether
`stopPropagation` and `preventDefault` were invoked on the event, and
how many times `onSave` was triggered. -/
structure KeyDownResult where
  stopPropagation : Bool
  preventDefault : Bool
  saveCalls : Nat
deriving DecidableEq, Repr

/-- `onKeyDown` from the source.  `normalizeKeyName` lives in
`src/shared/browser-compatibility-utils`, outside this excerpt; the spec
treats it as an opaque total deterministic utility, so the handler is
parametric in it (`nk`). -/
def onKeyDown (nk : String → String) (draft : Draft) (e : KeyEvent) : KeyDownResult :=
  let key := nk e.key
  if isEmpty draft then
    ⟨false, false, 0⟩
  else if (e.metaKey || e.ctrlKey) && key == "Enter" then
    ⟨true, true, 1⟩
  else
    ⟨false, false, 0⟩

/-- A group, as far as the component reads it: its visibility type. -/
structure Group where
  type : String
deriving DecidableEq, Repr

/-- What the component renders when a draft exists: the data fed to the
markdown editor, tag editor, publish control and license notice. -/
structure RenderedEditor where
  text : String
  tagList : List String
  isDisabled : Bool
  showLicense : Bool
deriving DecidableEq, Repr

/-- `!draft.isPrivate && group && group.type !== 'private'`. -/
def shouldShowLicense (draft : Draft) (group : Option Group) : Bool :=
  !draft.isPrivate &&
    (match group with
     | some g => g.type != "private"
     | none => false)

/-- The body of the `AnnotationEditor` component: given the results of
`store.getDraft(annotation)` and `store.getGroup(annotation.group)`, it
renders `null` (`none`) when there is no draft, and the editing surface
otherwise. -/
def AnnotationEditor (draftOpt : Option Draft) (group : Option Group) :
    Option RenderedEditor :=
  match draftOpt with
  | none => none
  | some draft =>
    some ⟨draft.text, draft.tags, isEmpty draft, shouldShowLicense draft group⟩

/-! Helper lemmas about the embedded JavaScript primitives. -/

/-- A string has length zero exactly when it is the empty string. -/
theorem string_length_eq_zero {s : String} : s.length = 0 ↔ s = "" := by
  cases s with
  | mk l => cases l <;> simp [String.length, String.ext_iff]

/-- `indexOf` is non-negative exactly when the element occurs in the list. -/
theorem jsIndexOf_nonneg_iff (l : List String) (x : String) :
    0 ≤ jsIndexOf l x ↔ x ∈ l := by
  induction l with
  | nil => simp [jsIndexOf]
  | cons a rest ih =>
    by_cases hax : a = x
    · subst hax; simp [jsIndexOf]
    · rw [jsIndexOf, if_neg hax]
      by_cases hr : jsIndexOf rest x < 0
      · rw [if_pos hr]
        simp only [List.mem_cons]
        constructor
        · intro h; omega
        · rintro (h | h)
          · exact absurd h.symm hax
          · have := ih.mpr h; omega
      · rw [if_neg hr]
        simp only [List.mem_cons]
        constructor
        · intro _; right; exact ih.mp (by omega)
        · intro _; omega

/-- Removing one element at a successor index steps past the head. -/
theorem spliceRemoveOne_cons (a : String) (l : List String) (i : Nat) :
    spliceRemoveOne (a :: l) (i + 1) = a :: spliceRemoveOne l i := by
  simp [spliceRemoveOne]

/-- Splicing out the element at the index returned by `indexOf` removes
exactly the first occurrence: it agrees with `List.erase`. -/
theorem spliceRemoveOne_jsIndexOf (l : List String) (x : String) (h : x ∈ l) :
    spliceRemoveOne l (jsIndexOf l x).toNat = l.erase x := by
  induction l with
  | nil => cases h
  | cons a rest ih =>
    by_cases hax : a = x
    · subst hax
      rw [jsIndexOf, if_pos rfl]
      simp [spliceRemoveOne, List.erase_cons_head]
    · have hx : x ∈ rest := by
        rcases List.mem_cons.mp h with h1 | h1
        · exact absurd h1.symm hax
        · exact h1
      have hr : 0 ≤ jsIndexOf rest x := (jsIndexOf_nonneg_iff rest x).mpr hx
      rw [jsIndexOf, if_neg hax, if_neg (by omega)]
      have ht : (jsIndexOf rest x + 1).toNat = (jsIndexOf rest x).toNat + 1 := by omega
      rw [ht, spliceRemoveOne_cons, ih hx, List.erase_cons_tail]
      simp [hax]

/-- `onAddTag` on a candidate that trims to the empty string: rejected,
nothing touched. -/
theorem onAddTag_of_trim_empty {d : Draft} {c : String} (h : jsTrim c = "") :
    onAddTag d c = ⟨false, d, []⟩ := by
  have h0 : (jsTrim c).length = 0 := by rw [h]; rfl
  simp [onAddTag, h0]

/-- `onAddTag` on a candidate whose trimmed value is already a tag:
rejected, nothing touched. -/
theorem onAddTag_of_dup {d : Draft} {c : String} (h : jsTrim c ∈ d.tags) :
    onAddTag d c = ⟨false, d, []⟩ := by
  by_cases h0 : (jsTrim c).length = 0
  · simp [onAddTag, h0]
  · have hi : 0 ≤ jsIndexOf d.tags (jsTrim c) := (jsIndexOf_nonneg_iff _ _).mpr h
    simp [onAddTag, h0, hi]

/-- `onAddTag` on a fresh non-empty trimmed candidate: appended at the
end, the whole updated list forwarded to the tag service, `true`. -/
theorem onAddTag_of_fresh {d : Draft} {c : String} (h1 : jsTrim c ≠ "")
    (h2 : jsTrim c ∉ d.tags) :
    onAddTag d c =
      ⟨true, { d with tags := d.tags ++ [jsTrim c] },
        [(d.tags ++ [jsTrim c]).map (fun tag => TagRecord.mk tag)]⟩ := by
  have h0 : ¬ (jsTrim c).length = 0 := fun hc => h1 (string_length_eq_zero.mp hc)
  have hi : ¬ 0 ≤ jsIndexOf d.tags (jsTrim c) :=
    fun hc => h2 ((jsIndexOf_nonneg_iff _ _).mp hc)
  simp [onAddTag, h0, hi, onEditTags]

/-- `onRemoveTag` on an absent tag: `false`, nothing touched. -/
theorem onRemoveTag_of_absent {d : Draft} {t : String} (h : t ∉ d.tags) :
    onRemoveTag d t = ⟨false, d⟩ := by
  have h0 : ¬ 0 ≤ jsIndexOf d.tags t := fun hc => h ((jsIndexOf_nonneg_iff _ _).mp hc)
  simp [onRemoveTag, h0]

/-- `onRemoveTag` on a present tag: the first occurrence is erased. -/
theorem onRemoveTag_of_present {d : Draft} {t : String} (h : t ∈ d.tags) :
    onRemoveTag d t = ⟨true, { d with tags := d.tags.erase t }⟩ := by
  have h0 : 0 ≤ jsIndexOf d.tags t := (jsIndexOf_nonneg_iff _ _).mpr h
  simp [onRemoveTag, h0, onEditTags, spliceRemoveOne_jsIndexOf d.tags t h]

/-! The claims. -/

/-- C1: `onAddTag` first trims the candidate; if the trimmed value is
empty it returns `false` with no mutation and no service call; if the
trimmed value already occurs in the draft's tags (exact match) it
returns `false` with no mutation and no service call; otherwise it
appends the trimmed value at the end, replaces the draft with the new
list, forwards the entire updated list as `{text: string}` records to
the tag-suggestion service, and returns `true`. -/
theorem onAddTag_spec (d : Draft) (c : String) :
    (jsTrim c = "" → onAddTag d c = ⟨false, d, []⟩) ∧
    (jsTrim c ∈ d.tags → onAddTag d c = ⟨false, d, []⟩) ∧
    (jsTrim c ≠ "" → jsTrim c ∉ d.tags →
      onAddTag d c =
        ⟨true, { d with tags := d.tags ++ [jsTrim c] },
          [(d.tags ++ [jsTrim c]).map (fun tag => TagRecord.mk tag)]⟩) :=
  ⟨fun h => onAddTag_of_trim_empty h,
   fun h => onAddTag_of_dup h,
   fun h1 h2 => onAddTag_of_fresh h1 h2⟩

/-- Witness for C1 at a concrete input: adding `" b "` to tags `["a"]`
trims to `"b"`, appends it and forwards `[{text:"a"},{text:"b"}]`. -/
theorem onAddTag_spec_witness :
    (jsTrim " b " ≠ "" ∧ jsTrim " b " ∉ ["a"]) ∧
      onAddTag ⟨1, "t", ["a"], false⟩ " b " =
        ⟨true, ⟨1, "t", ["a", "b"], false⟩, [[⟨"a"⟩, ⟨"b"⟩]]⟩ :=
  ⟨by decide,
   by
    have h := (onAddTag_spec ⟨1, "t", ["a"], false⟩ " b ").2.2 (by decide) (by decide)
    rw [h]; decide⟩

/-- C4: `onRemoveTag` returns `false` with no mutation when no tag is
exactly equal to the argument; when one is, it removes the first such
occurrence (`List.erase`, which keeps the relative order of the rest),
replaces the draft with the new list, and returns `true`. -/
theorem onRemoveTag_spec (d : Draft) (t : String) :
    (t ∉ d.tags → onRemoveTag d t = ⟨false, d⟩) ∧
    (t ∈ d.tags → onRemoveTag d t = ⟨true, { d with tags := d.tags.erase t }⟩) :=
  ⟨fun h => onRemoveTag_of_absent h, fun h => onRemoveTag_of_present h⟩

/-- Witness for C4: removing `"b"` from `["a","b","c"]` yields
`["a","c"]` and `true`; removing `"z"` is covered by the first conjunct
at another input in the examples above. -/
theorem onRemoveTag_spec_witness :
    ("b" ∈ ["a", "b", "c"]) ∧
      onRemoveTag ⟨1, "t", ["a", "b", "c"], false⟩ "b" =
        ⟨true, ⟨1, "t", ["a", "c"], false⟩⟩ :=
  ⟨by decide,
   by
    have h := (onRemoveTag_spec ⟨1, "t", ["a", "b", "c"], false⟩ "b").2 (by decide)
    rw [h]; decide⟩

/-- C7: if the draft's tags are pairwise distinct, the tag list produced
by any `onAddTag` or `onRemoveTag` is again pairwise distinct, and the
relative order of the tags that remain is preserved: the old list is a
prefix of the list produced by `onAddTag`, and the list produced by
`onRemoveTag` is a sublist of the old one. -/
theorem tags_distinct_order_invariant (d : Draft) (c t : String)
    (h : d.tags.Nodup) :
    ((onAddTag d c).draft.tags.Nodup ∧
      List.IsPrefix d.tags (onAddTag d c).draft.tags) ∧
    ((onRemoveTag d t).draft.tags.Nodup ∧
      List.Sublist (onRemoveTag d t).draft.tags d.tags) := by
  constructor
  · by_cases h0 : jsTrim c = ""
    · rw [onAddTag_of_trim_empty h0]
      exact ⟨h, List.prefix_refl _⟩
    · by_cases hm : jsTrim c ∈ d.tags
      · rw [onAddTag_of_dup hm]
        exact ⟨h, List.prefix_refl _⟩
      · rw [onAddTag_of_fresh h0 hm]
        refine ⟨?_, List.prefix_append _ _⟩
        simp [List.nodup_append, h, hm]
  · by_cases ht : t ∈ d.tags
    · rw [onRemoveTag_of_present ht]
      exact ⟨h.erase t, List.erase_sublist t d.tags⟩
    · rw [onRemoveTag_of_absent ht]
      exact ⟨h, List.Sublist.refl _⟩

/-- Witness for C7 at a concrete draft with distinct tags. -/
theorem tags_distinct_order_invariant_witness :
    (["a", "b"] : List String).Nodup ∧
      (((onAddTag ⟨1, "t", ["a", "b"], false⟩ "c").draft.tags.Nodup ∧
        List.IsPrefix ["a", "b"] (onAddTag ⟨1, "t", ["a", "b"], false⟩ "c").draft.tags) ∧
       ((onRemoveTag ⟨1, "t", ["a", "b"], false⟩ "a").draft.tags.Nodup ∧
        List.Sublist (onRemoveTag ⟨1, "t", ["a", "b"], false⟩ "a").draft.tags ["a", "b"])) :=
  ⟨by decide, tags_distinct_order_invariant ⟨1, "t", ["a", "b"], false⟩ "c" "a" (by decide)⟩

/-- C10: whenever `onAddTag` returns `false` (empty after trimming or a
duplicate), the tag-suggestion service is not invoked at all and the
draft is untouched: a `false` return implies zero external side
effects. -/
theorem onAddTag_reject_frame (d : Draft) (c : String)
    (h : (onAddTag d c).ret = false) :
    (onAddTag d c).tagServiceCalls = [] ∧ (onAddTag d c).draft = d := by
  by_cases h0 : jsTrim c = ""
  · rw [onAddTag_of_trim_empty h0]
    exact ⟨rfl, rfl⟩
  · by_cases hm : jsTrim c ∈ d.tags
    · rw [onAddTag_of_dup hm]
      exact ⟨rfl, rfl⟩
    · rw [onAddTag_of_fresh h0 hm] at h
      cases h

/-- Witness for C10: adding the duplicate `"a"` returns `false`, and
indeed no tag-service call is made and the draft is unchanged. -/
theorem onAddTag_reject_frame_witness :
    ((onAddTag ⟨1, "t", ["a"], false⟩ "a").ret = false) ∧
      ((onAddTag ⟨1, "t", ["a"], false⟩ "a").tagServiceCalls = [] ∧
        (onAddTag ⟨1, "t", ["a"], false⟩ "a").draft = ⟨1, "t", ["a"], false⟩) :=
  ⟨by decide, onAddTag_reject_frame ⟨1, "t", ["a"], false⟩ "a" (by decide)⟩

/-- C2: when the external save operation rejects, `onSave` returns
normally (nothing is rethrown: the result is `Except.ok`), its toast
output is exactly the one fixed message, and the draft after the failed
attempt is the draft that was in place just before the attempt (the
post-flush draft) — identical to what a successful save would have
left. -/
theorem onSave_failure_spec (d : Draft) (ti : Option String) (msg : String) :
    ∃ r : SaveResult,
      onSave d ti (Except.ok ()) = Except.ok r ∧
      r.toastErrors = [] ∧
      onSave d ti (Except.error msg) =
        Except.ok { r with toastErrors := ["Saving annotation failed"] } ∧
      r.draft = (flushTagInput d ti).draft :=
  ⟨⟨(flushTagInput d ti).addTagCalls, (flushTagInput d ti).draft,
    (flushTagInput d ti).tagServiceCalls, 1, []⟩, rfl, rfl, rfl, rfl⟩

/-- C6: whenever the tag-input buffer holds uncommitted free text (a
non-empty value), `onSave` first attempts `onAddTag` with exactly that
text, and invokes the external save operation exactly once regardless of
whether the attempt succeeded (the flush is best-effort). -/
theorem onSave_flush_spec (d : Draft) (v : String) (o : Except String Unit)
    (hv : v ≠ "") :
    ∃ r : SaveResult,
      onSave d (some v) o = Except.ok r ∧
      r.addTagCalls = [v] ∧
      r.draft = (onAddTag d v).draft ∧
      r.saveCalls = 1 := by
  have hf : flushTagInput d (some v) =
      ⟨[v], (onAddTag d v).draft, (onAddTag d v).tagServiceCalls⟩ := by
    simp [flushTagInput, hv]
  cases o with
  | ok u => exact ⟨_, rfl, by rw [hf], by rw [hf], rfl⟩
  | error e => exact ⟨_, rfl, by rw [hf], by rw [hf], rfl⟩

/-- Witness for C6 at an input whose flush fails (the buffered text is a
duplicate tag): the save still runs exactly once. -/
theorem onSave_flush_spec_witness :
    ("x" : String) ≠ "" ∧
      ∃ r : SaveResult,
        onSave ⟨1, "t", ["x"], false⟩ (some "x") (Except.ok ()) = Except.ok r ∧
        r.addTagCalls = ["x"] ∧
        r.draft = (onAddTag ⟨1, "t", ["x"], false⟩ "x").draft ∧
        r.saveCalls = 1 :=
  ⟨by decide, onSave_flush_spec ⟨1, "t", ["x"], false⟩ "x" (Except.ok ()) (by decide)⟩

/-- C3: on a non-empty draft, if the normalized key is `"Enter"` and the
meta or ctrl modifier is active, the handler stops propagation, prevents
the default and triggers exactly one save; every other combination is
ignored (no suppression, no save). -/
theorem onKeyDown_shortcut_spec (nk : String → String) (d : Draft) (e : KeyEvent)
    (hne : isEmpty d = false) :
    ((nk e.key = "Enter" ∧ (e.metaKey = true ∨ e.ctrlKey = true)) →
      onKeyDown nk d e = ⟨true, true, 1⟩) ∧
    (¬(nk e.key = "Enter" ∧ (e.metaKey = true ∨ e.ctrlKey = true)) →
      onKeyDown nk d e = ⟨false, false, 0⟩) := by
  constructor
  · rintro ⟨hk, hm⟩
    have hmc : (e.metaKey || e.ctrlKey) = true := by
      rcases hm with h | h <;> simp [h]
    simp [onKeyDown, hne, hmc, hk]
  · intro hnp
    have hb : ((e.metaKey || e.ctrlKey) && (nk e.key == "Enter")) = false := by
      by_contra hb
      rw [Bool.not_eq_false, Bool.and_eq_true, Bool.or_eq_true] at hb
      exact hnp ⟨by simpa using hb.2, hb.1⟩
    simp [onKeyDown, hne, hb]

/-- Witness for C3: Ctrl+Enter on a draft with text `"hello"` suppresses
the event and triggers exactly one save. -/
theorem onKeyDown_shortcut_spec_witness :
    isEmpty ⟨1, "hello", [], false⟩ = false ∧
      onKeyDown id ⟨1, "hello", [], false⟩ ⟨"Enter", false, true⟩ = ⟨true, true, 1⟩ :=
  ⟨by decide,
   (onKeyDown_shortcut_spec id ⟨1, "hello", [], false⟩ ⟨"Enter", false, true⟩
      (by decide)).1 ⟨rfl, Or.inr rfl⟩⟩

/-- C5: on an empty draft (blank text and zero tags) the handler is an
early no-op for every key event: no suppression, no save. -/
theorem onKeyDown_empty_noop (nk : String → String) (d : Draft) (e : KeyEvent)
    (h : isEmpty d = true) :
    onKeyDown nk d e = ⟨false, false, 0⟩ := by
  simp [onKeyDown, h]

/-- Witness for C5: Cmd/Ctrl+Enter on an empty draft does nothing. -/
theorem onKeyDown_empty_noop_witness :
    isEmpty ⟨1, "", [], false⟩ = true ∧
      onKeyDown id ⟨1, "", [], false⟩ ⟨"Enter", true, true⟩ = ⟨false, false, 0⟩ :=
  ⟨by decide, onKeyDown_empty_noop id ⟨1, "", [], false⟩ ⟨"Enter", true, true⟩ (by decide)⟩

/-- C8: when the draft store holds no draft for the annotation, the
component renders nothing; the missing draft is a legitimate state, not
a failure (`AnnotationEditor` is total and simply returns `none`). -/
theorem AnnotationEditor_missing_draft (draftOpt : Option Draft) (group : Option Group)
    (h : draftOpt = none) :
    AnnotationEditor draftOpt group = none := by
  subst h; rfl

/-- Witness for C8 with a concrete group present. -/
theorem AnnotationEditor_missing_draft_witness :
    ((none : Option Draft) = none) ∧ AnnotationEditor none (some ⟨"open"⟩) = none :=
  ⟨rfl, AnnotationEditor_missing_draft none (some ⟨"open"⟩) rfl⟩

/-- C9: `onEditText` replaces the draft with one whose tags, privacy
flag and annotation reference are unchanged and whose text is the new
text; `onEditTags` replaces it with one whose text, privacy flag and
annotation reference are unchanged and whose tags are the new tags. -/
theorem onEdit_frame_spec (d : Draft) (t : String) (ts : List String) :
    ((onEditText d t).tags = d.tags ∧ (onEditText d t).isPrivate = d.isPrivate ∧
      (onEditText d t).annotId = d.annotId ∧ (onEditText d t).text = t) ∧
    ((onEditTags d ts).text = d.text ∧ (onEditTags d ts).isPrivate = d.isPrivate ∧
      (onEditTags d ts).annotId = d.annotId ∧ (onEditTags d ts).tags = ts) :=
  ⟨⟨rfl, rfl, rfl, rfl⟩, ⟨rfl, rfl, rfl, rfl⟩⟩

end Client
